import Mathlib

/-!
Verification of the PythonRuff plugin's diagnostic pipeline.

The development shallowly embeds the logic of `python_ruff.py`: severity
classification, config-file discovery, tool location, the buffer updates of
the format/fix commands, the lint command's post-subprocess state transition,
and diagnostic navigation.  Host-editor primitives (buffers, regions, the
settings store) are modelled as explicit data; the external process is
modelled by its observable result (exit code, decoded standard output).
-/

namespace PythonRuff

/-- A Sublime `Region`: a pair of buffer offsets `a`, `b`.
`begin()` is `min a b`, `end()` is `max a b`, `empty()` is `a == b`. -/
structure Region where
  a : Nat
  b : Nat
  deriving DecidableEq

/-- `Region.begin()`. -/
def Region.rbegin (r : Region) : Nat := min r.a r.b

/-- `Region.end()`. -/
def Region.rend (r : Region) : Nat := max r.a r.b

/-- `Region.empty()`. -/
def Region.isEmpty (r : Region) : Bool := r.a == r.b

/-- The three severity tiers produced by `_get_severity`. -/
inductive Severity where
  | error
  | warning
  | info
  deriving DecidableEq

/-- `error_prefixes` from `_get_severity` (src line 384). -/
def error_prefixes : List String := ["E", "F"]

/-- `warning_prefixes` from `_get_severity` (src line 386), copied verbatim. -/
def warning_prefixes : List String :=
  ["W", "N", "D", "UP", "ANN", "S", "B", "A", "C", "DTZ", "T", "EM", "EXE",
   "ISC", "ICN", "G", "INP", "PIE", "PYI", "PT", "Q", "RSE", "RET", "SLF",
   "SLOT", "SIM", "TID", "TCH", "INT", "ARG", "PTH", "TD", "FIX", "ERA", "PD",
   "PGH", "PL", "TRY", "FLY", "NPY", "AIR", "PERF", "FURB", "LOG", "RUF"]

/-- Python's `str.startswith`, phrased on the character lists of the two
strings so that it evaluates by kernel reduction. -/
def str_starts_with (s p : String) : Bool := p.data.isPrefixOf s.data

/-- Python's `code[0]` on a string, as the one-character string made of the
first character (empty when `code` is empty). -/
def first_char_of (code : String) : String := ⟨code.data.take 1⟩

/-- `PythonRuffLintCommand._get_severity` (src lines 378-395).  A missing
code (`None` in Python) is modelled as the empty string; `code[0]` is
modelled as `first_char_of code`, matching Python's indexing of a string
by `0` and the membership test against the one-character strings of
`error_prefixes`. -/
def get_severity (code : String) : Severity :=
  if code = "" then .error
  else
    let first_char := first_char_of code
    if first_char ∈ error_prefixes then .error
    else if warning_prefixes.any (fun p => str_starts_with code p) then .warning
    else .info

/-- C2: the severity classifier is the ordered case analysis of
`_get_severity`: an empty or missing code maps to `error`; a code whose
first character is one of the designated error families `E`, `F` maps to
`error`; otherwise a code starting with one of the fixed warning-family
strings maps to `warning`; every other non-empty code maps to `info`.
The warning-family list literally contains `W`, `N`, `D`, `UP`, `EM`,
`EXE`, `ERA`, `FLY`, `FURB`, `FIX`, `RUF` among others (the error clause
is checked first, so e.g. `EM...` codes are claimed by the error family). -/
theorem severity_policy (code : String) :
    (code = "" → get_severity code = .error) ∧
    (code ≠ "" → first_char_of code ∈ error_prefixes →
      get_severity code = .error) ∧
    (code ≠ "" → first_char_of code ∉ error_prefixes →
      (∃ p ∈ warning_prefixes, str_starts_with code p) →
      get_severity code = .warning) ∧
    (code ≠ "" → first_char_of code ∉ error_prefixes →
      (∀ p ∈ warning_prefixes, ¬ str_starts_with code p) →
      get_severity code = .info) ∧
    (∀ p ∈ (["W", "N", "D", "UP", "EM", "EXE", "ERA", "FLY", "FURB", "FIX",
             "RUF"] : List String), p ∈ warning_prefixes) := by
  refine ⟨?_, ?_, ?_, ?_, ?_⟩
  · intro h; simp [get_severity, h]
  · intro hc h
    simp [get_severity, hc, h]
  · intro hc hfc ⟨p, hp, hsw⟩
    have hany : warning_prefixes.any (fun p => str_starts_with code p) = true :=
      List.any_eq_true.mpr ⟨p, hp, hsw⟩
    simp [get_severity, hc, hfc, hany]
  · intro hc hfc hno
    have hany : warning_prefixes.any (fun p => str_starts_with code p) = false := by
      rw [List.any_eq_false]
      intro p hp
      simpa using hno p hp
    simp [get_severity, hc, hfc, hany]
  · decide

/-- Witness for `severity_policy`: the code `"UP001"` is non-empty, its
first character is not an error family, it starts with the warning family
`"UP"`, and the classifier maps it to `warning`. -/
theorem severity_policy_witness : get_severity "UP001" = .warning :=
  (severity_policy "UP001").2.2.1 (by decide) (by decide)
    ⟨"UP", by decide, by decide⟩

/-- C9: concrete classifications — `E501` is an error, `W605` and `RUF100`
are warnings, the empty/missing code is an error, and the unrecognized
code `ZZ1` is info. -/
theorem severity_examples :
    get_severity "E501" = .error ∧
    get_severity "W605" = .warning ∧
    get_severity "RUF100" = .warning ∧
    get_severity "" = .error ∧
    get_severity "ZZ1" = .info := by
  refine ⟨?_, ?_, ?_, ?_, ?_⟩ <;> decide

/-! ### Format and fix buffer updates -/

/-- The post-subprocess buffer update of `PythonRuffFormatCommand.run`
(src lines 141-153): on exit code `0` the decoded standard output replaces
the formatted region only when it differs from the original text; on any
other exit code the buffer is untouched.  The result is the new content of
the region together with a flag recording whether `view.replace` ran. -/
def formatApply (code : String) (returncode : Int) (stdout : String) :
    String × Bool :=
  if returncode = 0 then
    if stdout ≠ code then (stdout, true) else (code, false)
  else (code, false)

/-- The post-subprocess buffer update of `PythonRuffFixCommand.run`
(src lines 497-510): on exit code `0` or `1` the decoded standard output
replaces the whole buffer only when it is non-empty (Python truthiness of
`fixed_code`) and differs from the original; on any other exit code the
buffer is untouched. -/
def fixApply (code : String) (returncode : Int) (stdout : String) :
    String × Bool :=
  if returncode = 0 ∨ returncode = 1 then
    if stdout ≠ "" ∧ stdout ≠ code then (stdout, true) else (code, false)
  else (code, false)

/-- C6: fix safety — when the tool's exit code is outside `{0, 1}` the
buffer content is never replaced, and when the exit code is `0` or `1`
and the tool's output equals the original buffer content no buffer
mutation occurs. -/
theorem fix_safety (code : String) (rc : Int) (out : String) :
    (rc ≠ 0 → rc ≠ 1 → fixApply code rc out = (code, false)) ∧
    ((rc = 0 ∨ rc = 1) → out = code → fixApply code rc out = (code, false)) := by
  constructor
  · intro h0 h1
    simp [fixApply, h0, h1]
  · intro hrc hout
    subst hout
    simp [fixApply, hrc]

/-- Witness for `fix_safety`: exit code `2` never replaces, and exit code
`0` with output equal to the buffer does not mutate it. -/
theorem fix_safety_witness :
    fixApply "x = 1\n" 2 "" = ("x = 1\n", false) ∧
    fixApply "x = 1\n" 0 "x = 1\n" = ("x = 1\n", false) :=
  ⟨(fix_safety "x = 1\n" 2 "").1 (by decide) (by decide),
   (fix_safety "x = 1\n" 0 "x = 1\n").2 (Or.inl rfl) rfl⟩

/-- C10: a fix run that exits with code `0` or `1` but produces empty
standard output never replaces the buffer — the empty result is treated
as "no fixable issues", so fix cannot blank the buffer. -/
theorem fix_empty_output_no_replace (code : String) (rc : Int) (out : String)
    (hrc : rc = 0 ∨ rc = 1) (hout : out = "") :
    fixApply code rc out = (code, false) := by
  subst hout
  simp [fixApply, hrc]

/-- Witness for `fix_empty_output_no_replace`: exit code `1` with empty
output leaves a non-empty buffer unchanged. -/
theorem fix_empty_output_no_replace_witness :
    fixApply "import os\n" 1 "" = ("import os\n", false) :=
  fix_empty_output_no_replace "import os\n" 1 "" (Or.inr rfl) rfl

/-- C8: format replacement — on exit code `0` the tool's standard output is
the complete replacement text, written only when it differs from the
original; equal output leaves the buffer unchanged, so a second format run
on already-formatted input (input fixed by the formatting function `f`)
produces no further change. -/
theorem format_replacement (code : String) (rc : Int) (out : String) :
    (rc = 0 → out ≠ code → formatApply code rc out = (out, true)) ∧
    (rc = 0 → out = code → formatApply code rc out = (code, false)) ∧
    (∀ f : String → String, f code = code →
      formatApply code 0 (f code) = (code, false) ∧
      formatApply (formatApply code 0 (f code)).1 0
        (f (formatApply code 0 (f code)).1) = (code, false)) := by
  refine ⟨?_, ?_, ?_⟩
  · intro hrc hne
    simp [formatApply, hrc, hne]
  · intro hrc he
    subst he
    simp [formatApply, hrc]
  · intro f hf
    have h1 : formatApply code 0 (f code) = (code, false) := by
      rw [hf]; simp [formatApply]
    refine ⟨h1, ?_⟩
    rw [h1]
    simp only
    rw [hf]
    simp [formatApply]

/-- Witness for `format_replacement`: with the identity as the (already
converged) formatter on `"x = 1\n"`, both the first and the second format
run leave the buffer unchanged; a differing output is written verbatim. -/
theorem format_replacement_witness :
    formatApply "x=1\n" 0 "x = 1\n" = ("x = 1\n", true) ∧
    formatApply "x = 1\n" 0 "x = 1\n" = ("x = 1\n", false) :=
  ⟨(format_replacement "x=1\n" 0 "x = 1\n").1 rfl (by decide),
   ((format_replacement "x = 1\n" 0 "x = 1\n").2.2 id rfl).1⟩

/-! ### Config discovery

A directory is modelled as its component list with the deepest component
first, so the parent of `d :: rest` is `rest` and `[]` is the filesystem
root (whose parent is itself, which is where the source's walk stops).
The filesystem is a predicate `fs dir name` telling whether the regular
file `name` exists in `dir`.  Under this encoding the directories visited
by the walk from `dir` are exactly the suffixes `dir.drop k`. -/

/-- The fixed priority list of recognized config filenames
(src line 53), most specific first. -/
def configNames : List String := ["ruff.toml", ".ruff.toml", "pyproject.toml"]

/-- The directory walk of `get_ruff_config_file` (src lines 52-65): in each
directory try the config names in priority order; on a miss move to the
parent; stop at the root. -/
def walkConfig (fs : List String → String → Bool) :
    List String → Option (List String × String)
  | [] =>
    match configNames.find? (fun n => fs [] n) with
    | some n => some ([], n)
    | none => none
  | d :: rest =>
    match configNames.find? (fun n => fs (d :: rest) n) with
    | some n => some (d :: rest, n)
    | none => walkConfig fs rest

/-- `get_ruff_config_file` (src lines 42-67).  The input is the containing
directory of the file being linted (`os.path.dirname(os.path.abspath(p))`),
or `none` when the source receives a falsy `filepath`. -/
def get_ruff_config_file (fs : List String → String → Bool) :
    Option (List String) → Option (List String × String)
  | none => none
  | some dir => walkConfig fs dir

theorem walkConfig_none_iff (fs : List String → String → Bool) :
    ∀ dir : List String,
      (walkConfig fs dir = none ↔ ∀ k, ∀ n ∈ configNames, ¬ fs (dir.drop k) n) := by
  intro dir
  induction dir with
  | nil =>
    cases hfind : configNames.find? (fun n => fs [] n) with
    | some m =>
      simp only [walkConfig, hfind]
      constructor
      · intro h; exact absurd h (by simp)
      · intro h
        exact absurd (List.find?_some hfind) (by simpa using h 0 m (List.mem_of_find?_eq_some hfind))
    | none =>
      simp only [walkConfig, hfind, List.drop_nil]
      constructor
      · intro _ k n hn
        exact fun hf => (List.find?_eq_none.mp hfind n hn) (by simpa using hf)
      · intro _; trivial
  | cons d rest ih =>
    cases hfind : configNames.find? (fun n => fs (d :: rest) n) with
    | some m =>
      simp only [walkConfig, hfind]
      constructor
      · intro h; exact absurd h (by simp)
      · intro h
        exact absurd (List.find?_some hfind)
          (by simpa using h 0 m (List.mem_of_find?_eq_some hfind))
    | none =>
      simp only [walkConfig, hfind]
      rw [ih]
      constructor
      · intro h k n hn
        match k with
        | 0 =>
          exact fun hf => (List.find?_eq_none.mp hfind n hn) (by simpa using hf)
        | k + 1 =>
          simpa using h k n hn
      · intro h k n hn
        simpa using h (k + 1) n hn

theorem walkConfig_some_spec (fs : List String → String → Bool) :
    ∀ (dir d : List String) (n : String),
      walkConfig fs dir = some (d, n) →
      ∃ k, dir.drop k = d ∧
        (∀ j, j < k → ∀ m ∈ configNames, ¬ fs (dir.drop j) m) ∧
        fs d n ∧ n ∈ configNames ∧
        ∃ l1 l2, configNames = l1 ++ n :: l2 ∧ ∀ m ∈ l1, ¬ fs d m := by
  intro dir
  induction dir with
  | nil =>
    intro d n h
    cases hfind : configNames.find? (fun n => fs [] n) with
    | none => simp [walkConfig, hfind] at h
    | some m =>
      simp only [walkConfig, hfind, Option.some.injEq, Prod.mk.injEq] at h
      obtain ⟨hd, hn⟩ := h
      subst hd; subst hn
      obtain ⟨hp, l1, l2, hsplit, hmiss⟩ := List.find?_eq_some.mp hfind
      refine ⟨0, rfl, by omega, by simpa using hp,
        List.mem_of_find?_eq_some hfind, l1, l2, hsplit, ?_⟩
      intro m hm
      simpa using hmiss m hm
  | cons a rest ih =>
    intro d n h
    cases hfind : configNames.find? (fun n => fs (a :: rest) n) with
    | some m =>
      simp only [walkConfig, hfind, Option.some.injEq, Prod.mk.injEq] at h
      obtain ⟨hd, hn⟩ := h
      subst hd; subst hn
      obtain ⟨hp, l1, l2, hsplit, hmiss⟩ := List.find?_eq_some.mp hfind
      refine ⟨0, rfl, by omega, by simpa using hp,
        List.mem_of_find?_eq_some hfind, l1, l2, hsplit, ?_⟩
      intro m hm
      simpa using hmiss m hm
    | none =>
      simp only [walkConfig, hfind] at h
      obtain ⟨k, hdrop, hmissdirs, hfs, hmem, l1, l2, hsplit, hmiss⟩ := ih d n h
      refine ⟨k + 1, by simpa using hdrop, ?_, hfs, hmem, l1, l2, hsplit, hmiss⟩
      intro j hj m hm
      match j with
      | 0 =>
        exact fun hf => (List.find?_eq_none.mp hfind m hm) (by simpa using hf)
      | j + 1 =>
        have := hmissdirs j (by omega) m hm
        simpa using this

/-- C4: config resolution starts at the file's containing directory, checks
`ruff.toml`, `.ruff.toml`, `pyproject.toml` in that order in each
directory, returning the first existing file; on a miss it moves to the
parent, stopping at the filesystem root; it returns none when no config
file exists on the whole walk and none when the input path is absent.
Directories visited are the suffixes `dir.drop k`; the returned pair is
the nearest directory holding a config name together with the
highest-priority existing name there. -/
theorem config_resolution (fs : List String → String → Bool)
    (dir : List String) :
    get_ruff_config_file fs none = none ∧
    (walkConfig fs dir = none ↔ ∀ k, ∀ n ∈ configNames, ¬ fs (dir.drop k) n) ∧
    (∀ d n, walkConfig fs dir = some (d, n) →
      get_ruff_config_file fs (some dir) = some (d, n) ∧
      ∃ k, dir.drop k = d ∧
        (∀ j, j < k → ∀ m ∈ configNames, ¬ fs (dir.drop j) m) ∧
        fs d n ∧ n ∈ configNames ∧
        ∃ l1 l2, configNames = l1 ++ n :: l2 ∧ ∀ m ∈ l1, ¬ fs d m) := by
  refine ⟨rfl, walkConfig_none_iff fs dir, ?_⟩
  intro d n h
  exact ⟨by simpa [get_ruff_config_file] using h, walkConfig_some_spec fs dir d n h⟩

/-- The filesystem of the C4 example: directories `a/b/c`, with
`pyproject.toml` existing only in `a/`.  In the deepest-first encoding the
directory `a/` is `["a"]` and `a/b/c/` is `["c", "b", "a"]`. -/
def exampleFs : List String → String → Bool :=
  fun d n => d == ["a"] && n == "pyproject.toml"

/-- Witness for `config_resolution`: resolving from `a/b/c/file.py` with
`pyproject.toml` only at `a/` returns `a/pyproject.toml`, found two
levels up with no config in `a/b/c/` or `a/b/`. -/
theorem config_resolution_witness :
    get_ruff_config_file exampleFs (some ["c", "b", "a"]) =
      some (["a"], "pyproject.toml") ∧
    get_ruff_config_file exampleFs none = none :=
  ⟨((config_resolution exampleFs ["c", "b", "a"]).2.2 ["a"] "pyproject.toml"
      (by decide)).1,
   (config_resolution exampleFs ["c", "b", "a"]).1⟩

/-! ### Tool location -/

/-- The filesystem facts `find_ruff_binary` reads: `os.path.isfile` and
`os.access(p, os.X_OK)`. -/
structure FsModel where
  isfile : String → Bool
  is_exec : String → Bool

/-- `shutil.which`'s executability test for a candidate path: it exists as
a regular file and is executable. -/
def access_check (fs : FsModel) (p : String) : Bool :=
  fs.isfile p && fs.is_exec p

/-- Whether a command string has a directory component
(`os.path.dirname(cmd)` is non-empty on POSIX). -/
def has_dir_component (cmd : String) : Bool := cmd.data.contains '/'

/-- POSIX `shutil.which` as invoked by `find_ruff_binary` (src line 33):
a command containing a directory separator is access-checked directly;
otherwise each directory of the search path is tried in order and the
first executable match is returned.  `os.path.join dir cmd` is modelled
as `dir ++ "/" ++ cmd`. -/
def which (fs : FsModel) (searchPath : List String) (cmd : String) :
    Option String :=
  if has_dir_component cmd then
    if access_check fs cmd then some cmd else none
  else
    (searchPath.find? (fun d => access_check fs (d ++ "/" ++ cmd))).map
      (fun d => d ++ "/" ++ cmd)

/-- `find_ruff_binary` (src lines 15-39).  The configured `ruff_binary`
setting is the argument; `none` models the raised `FileNotFoundError`
(the tool-not-found failure, raised on both branches). `os.path.isabs` on
POSIX is "starts with a slash". -/
def find_ruff_binary (fs : FsModel) (searchPath : List String)
    (ruff_binary : String) : Option String :=
  if str_starts_with ruff_binary "/" then
    if fs.isfile ruff_binary && fs.is_exec ruff_binary then some ruff_binary
    else none
  else
    which fs searchPath ruff_binary

/-- C7: tool location succeeds exactly when a binary is findable and fails
with the tool-not-found error otherwise.  For a configured absolute path it
succeeds — returning exactly that path — if and only if the path is a file
and executable.  For a configured bare name (non-absolute, no directory
component) it succeeds with the first executable match on the command
search path, and fails if and only if no directory of the search path
holds an executable match. -/
theorem tool_location (fs : FsModel) (sp : List String) (name : String) :
    (str_starts_with name "/" = true →
      (find_ruff_binary fs sp name = some name ↔
        (fs.isfile name && fs.is_exec name) = true) ∧
      (∀ r, find_ruff_binary fs sp name = some r → r = name)) ∧
    (str_starts_with name "/" = false → has_dir_component name = false →
      (find_ruff_binary fs sp name = none ↔
        ∀ d ∈ sp, access_check fs (d ++ "/" ++ name) = false) ∧
      (∀ r, find_ruff_binary fs sp name = some r →
        ∃ l1 d l2, sp = l1 ++ d :: l2 ∧ r = d ++ "/" ++ name ∧
          access_check fs r = true ∧
          ∀ e ∈ l1, access_check fs (e ++ "/" ++ name) = false)) := by
  constructor
  · intro habs
    constructor
    · constructor
      · intro h
        by_cases hx : (fs.isfile name && fs.is_exec name) = true
        · exact hx
        · simp [find_ruff_binary, habs, hx] at h
      · intro hx
        simp [find_ruff_binary, habs, hx]
    · intro r h
      by_cases hx : (fs.isfile name && fs.is_exec name) = true
      · simp [find_ruff_binary, habs, hx] at h
        exact h.symm
      · simp [find_ruff_binary, habs, hx] at h
  · intro habs hdir
    have hunfold : find_ruff_binary fs sp name =
        (sp.find? (fun d => access_check fs (d ++ "/" ++ name))).map
          (fun d => d ++ "/" ++ name) := by
      simp [find_ruff_binary, habs, which, hdir]
    constructor
    · rw [hunfold]
      cases hfind : sp.find? (fun d => access_check fs (d ++ "/" ++ name)) with
      | none =>
        simp only [Option.map_none', true_iff]
        intro d hd
        have := List.find?_eq_none.mp hfind d hd
        simpa using this
      | some d =>
        simp only [Option.map_some']
        constructor
        · intro h; exact absurd h (by simp)
        · intro h
          have hp := List.find?_some hfind
          have hd := List.mem_of_find?_eq_some hfind
          rw [h d hd] at hp
          exact absurd hp (by simp)
    · intro r h
      rw [hunfold] at h
      cases hfind : sp.find? (fun d => access_check fs (d ++ "/" ++ name)) with
      | none => rw [hfind] at h; simp at h
      | some d =>
        rw [hfind] at h
        simp only [Option.map_some', Option.some.injEq] at h
        obtain ⟨hp, l1, l2, hsplit, hmiss⟩ := List.find?_eq_some.mp hfind
        refine ⟨l1, d, l2, hsplit, h.symm, by rw [← h]; exact hp, ?_⟩
        intro e he
        simpa using hmiss e he

/-- The filesystem of the C7 witness: only `/usr/local/bin/ruff` exists
and is executable. -/
def exampleToolFs : FsModel :=
  { isfile := fun p => p == "/usr/local/bin/ruff",
    is_exec := fun p => p == "/usr/local/bin/ruff" }

/-- Witness for `tool_location`: the bare name `ruff` with search path
`["/usr/bin", "/usr/local/bin"]` resolves to `/usr/local/bin/ruff`, the
first (and only) executable match, with the earlier directory checked and
missed; the absolute path `/usr/local/bin/ruff` also succeeds. -/
theorem tool_location_witness :
    find_ruff_binary exampleToolFs ["/usr/bin", "/usr/local/bin"] "ruff" =
      some "/usr/local/bin/ruff" ∧
    find_ruff_binary exampleToolFs [] "/usr/local/bin/ruff" =
      some "/usr/local/bin/ruff" := by
  constructor
  · rfl
  · exact (((tool_location exampleToolFs [] "/usr/local/bin/ruff").1
      (by decide)).1).mpr (by decide)

/-! ### The lint pipeline -/

/-- A 1-based `(row, column)` location from the tool's JSON payload. -/
structure RuffLoc where
  row : Nat
  column : Nat
  deriving DecidableEq

/-- One parsed issue object from the tool's JSON output: rule code,
message, optional documentation URL, start location, optional end
location.  Missing `code`/`message`/`url` keys are modelled as the empty
string, matching the source's `diag.get(key, "")` defaults; a missing or
empty (falsy) `end_location` dict is `none`. -/
structure RuffDiag where
  location : RuffLoc
  end_location : Option RuffLoc
  code : String
  message : String
  url : String
  deriving DecidableEq

/-- The host view primitives `_show_diagnostics` reads: `text_point`
translates a 0-based `(row, col)` pair to a buffer offset, `word p` is the
word region at offset `p`, and `line p` is the full line region at `p`. -/
structure HostView where
  text_point : Nat → Nat → Nat
  word : Nat → Region
  line : Nat → Region

/-- The span computation of `_show_diagnostics` (src lines 276-304): the
start point comes from the 1-based start location; a present end location
gives the end point directly; otherwise the end point is the end of the
word at the start point, or the end of the containing line when that word
region is empty. -/
def diagRegion (v : HostView) (d : RuffDiag) : Region :=
  let point := v.text_point (d.location.row - 1) (d.location.column - 1)
  match d.end_location with
  | some e => { a := point, b := v.text_point (e.row - 1) (e.column - 1) }
  | none =>
    let word_region := v.word point
    if word_region.isEmpty then { a := point, b := (v.line point).rend }
    else { a := point, b := word_region.rend }

/-- One entry of the `ruff_diagnostics` list stored in the view settings
(src lines 315-323). -/
structure StoredDiag where
  region : Region
  code : String
  message : String
  url : String
  severity : Severity
  row : Nat
  col : Nat
  deriving DecidableEq

/-- How `_show_diagnostics` builds one stored entry (src lines 306-323). -/
def storedOf (v : HostView) (d : RuffDiag) : StoredDiag :=
  { region := diagRegion v d,
    code := d.code,
    message := d.message,
    url := d.url,
    severity := get_severity d.code,
    row := d.location.row,
    col := d.location.column }

/-- The observable view state the lint command manipulates: the three
keyed region lists, the `ruff_diagnostics` settings entry (`none` when the
key is erased), and the user-visible error/status messages emitted so far. -/
structure ViewState where
  ruff_errors : List Region
  ruff_warnings : List Region
  ruff_info : List Region
  ruff_diagnostics : Option (List StoredDiag)
  error_messages : List String
  status_messages : List String
  deriving DecidableEq

/-- The three `erase_regions` calls (src lines 186-188 and 245-247). -/
def eraseLintRegions (st : ViewState) : ViewState :=
  { st with ruff_errors := [], ruff_warnings := [], ruff_info := [] }

/-- `sublime.error_message`. -/
def error_message (msg : String) (st : ViewState) : ViewState :=
  { st with error_messages := st.error_messages ++ [msg] }

/-- `sublime.status_message`. -/
def status_message (msg : String) (st : ViewState) : ViewState :=
  { st with status_messages := st.status_messages ++ [msg] }

/-- `PythonRuffLintCommand._show_diagnostics` (src lines 269-376): builds
the stored entries in payload order, splits their regions by severity,
stores the list under `ruff_diagnostics`, renders the regions, and shows
the issue-count status message.  (The exec output panel is host glue and
outside the modelled state.)  `add_regions` is only called for non-empty
categories; since the lint run erased all three keys beforehand, an absent
call and an empty list are the same region state. -/
def show_diagnostics (v : HostView) (ds : List RuffDiag) (st : ViewState) :
    ViewState :=
  let stored := ds.map (storedOf v)
  let errs := (stored.filter (fun s => s.severity = .error)).map (·.region)
  let warns := (stored.filter (fun s => s.severity = .warning)).map (·.region)
  let infos := (stored.filter (fun s => s.severity = .info)).map (·.region)
  status_message
    ("PythonRuff: Found " ++ toString (errs.length + warns.length + infos.length)
      ++ " issue(s)")
    { st with ruff_errors := errs,
              ruff_warnings := warns,
              ruff_info := infos,
              ruff_diagnostics := some stored }

/-- The post-subprocess state transition of `PythonRuffLintCommand.run`
(src lines 185-262), parameterized by the JSON parser (`json.loads`
returning `none` on malformed input): regions are erased up front; exit
code 0 clears regions again, erases the stored diagnostics and reports
"no issues"; exit code 1 parses the output (an empty output stands for an
empty issue list) and either renders the diagnostics or reports a parse
failure; any other exit code reports a lint failure. -/
def lintRun (v : HostView) (parse : String → Option (List RuffDiag))
    (st0 : ViewState) (returncode : Int) (output : String) : ViewState :=
  let st := eraseLintRegions st0
  if returncode = 0 then
    status_message "PythonRuff: No issues found"
      { eraseLintRegions st with ruff_diagnostics := none }
  else if returncode = 1 then
    match (if output = "" then some [] else parse output) with
    | some ds => show_diagnostics v ds st
    | none => error_message "PythonRuff: Failed to parse linter output" st
  else
    error_message "PythonRuff Lint failed" st

/-- C1: a lint run whose tool exits with code 1 and whose standard output
is non-empty and not valid JSON reports the parse failure to the user and
leaves the stored diagnostic set (`ruff_diagnostics`) untouched — in
particular a non-empty set present before the run is still present,
unmodified, after it. -/
theorem parse_failure_preserves_diagnostics
    (v : HostView) (parse : String → Option (List RuffDiag))
    (st : ViewState) (rc : Int) (out : String)
    (hrc : rc = 1) (hout : out ≠ "") (hparse : parse out = none) :
    (lintRun v parse st rc out).ruff_diagnostics = st.ruff_diagnostics ∧
    "PythonRuff: Failed to parse linter output" ∈
      (lintRun v parse st rc out).error_messages ∧
    (∀ ds, st.ruff_diagnostics = some ds → ds ≠ [] →
      (lintRun v parse st rc out).ruff_diagnostics = some ds) := by
  subst hrc
  have hrun : lintRun v parse st 1 out =
      error_message "PythonRuff: Failed to parse linter output"
        (eraseLintRegions st) := by
    simp [lintRun, hout, hparse]
  rw [hrun]
  refine ⟨rfl, by simp [error_message, eraseLintRegions], ?_⟩
  intro ds hds _
  simpa [error_message, eraseLintRegions]

/-- The host view of the concrete examples: a single-line buffer whose
line `r` starts at offset `100 * r`, with no word at any offset and every
line spanning offsets 0 to 5. -/
def exampleView : HostView :=
  { text_point := fun r c => 100 * r + c,
    word := fun p => { a := p, b := p },
    line := fun _ => { a := 0, b := 5 } }

/-- A previously stored diagnostic, present before the failing lint run. -/
def exampleStored : StoredDiag :=
  { region := { a := 10, b := 14 },
    code := "E501",
    message := "Line too long",
    url := "",
    severity := .error,
    row := 1,
    col := 11 }

/-- A view state holding the non-empty stored set `[exampleStored]`. -/
def exampleState : ViewState :=
  { ruff_errors := [{ a := 10, b := 14 }],
    ruff_warnings := [],
    ruff_info := [],
    ruff_diagnostics := some [exampleStored],
    error_messages := [],
    status_messages := [] }

/-- Witness for `parse_failure_preserves_diagnostics`: a run with exit
code 1 and the unparseable output `"garbage"` keeps the stored set
`[exampleStored]` and emits the parse-failure error message. -/
theorem parse_failure_preserves_diagnostics_witness :
    (lintRun exampleView (fun _ => none) exampleState 1
        "garbage").ruff_diagnostics = some [exampleStored] ∧
    "PythonRuff: Failed to parse linter output" ∈
      (lintRun exampleView (fun _ => none) exampleState 1
        "garbage").error_messages := by
  have h := parse_failure_preserves_diagnostics exampleView (fun _ => none)
    exampleState 1 "garbage" rfl (by decide) rfl
  exact ⟨h.2.2 [exampleStored] rfl (by simp), h.2.1⟩

/-- The issue of the C5 failing input: start at row 1, column 2, with no
end location. -/
def exampleIssue : RuffDiag :=
  { location := { row := 1, column := 2 },
    end_location := none,
    code := "E999",
    message := "SyntaxError",
    url := "" }

/-- C5 evaluated at the failing input: in `exampleView` the start point is
offset 1, the word region there is empty and the containing line is the
region `[0, 5]`, yet the highlighted span is `Region 1 5` — it runs from
the issue's start point to the end of the line, not over the entire
containing line `Region 0 5` that the source's own comment ("If no word,
highlight the whole line") and the claim describe. -/
theorem span_fallback_not_whole_line :
    (exampleView.word 1).isEmpty = true ∧
    exampleView.line 1 = { a := 0, b := 5 } ∧
    diagRegion exampleView exampleIssue = { a := 1, b := 5 } ∧
    diagRegion exampleView exampleIssue ≠ exampleView.line 1 := by
  refine ⟨rfl, rfl, rfl, by decide⟩

/-! ### Diagnostic navigation -/

/-- `PythonRuffNextErrorCommand.run` (src lines 541-578) on the stored
diagnostics and the cursor position: the first stored entry whose region
begin is strictly greater than the position, wrapping to the first entry
when none qualifies; `none` on an empty set (the source returns after a
status message). -/
def nextDiag (diags : List StoredDiag) (pos : Nat) : Option StoredDiag :=
  match diags.find? (fun d => pos < d.region.rbegin) with
  | some d => some d
  | none => diags.head?

/-- `PythonRuffPreviousErrorCommand.run` (src lines 588-625): the last
stored entry whose region begin is strictly less than the position (the
first match of the reversed list), wrapping to the last entry when none
qualifies; `none` on an empty set. -/
def prevDiag (diags : List StoredDiag) (pos : Nat) : Option StoredDiag :=
  match diags.reverse.find? (fun d => d.region.rbegin < pos) with
  | some d => some d
  | none => diags.getLast?

theorem find?_min_key {α : Type _} (key : α → Nat) (pos : Nat)
    (l : List α) (hsorted : l.Pairwise (fun x y => key x ≤ key y))
    (x : α) (hfind : l.find? (fun a => pos < key a) = some x) :
    ∀ y ∈ l, pos < key y → key x ≤ key y := by
  obtain ⟨hp, l1, l2, hsplit, hmiss⟩ := List.find?_eq_some.mp hfind
  intro y hy hqy
  rw [hsplit] at hy
  rcases List.mem_append.mp hy with hy1 | hy2
  · exact absurd hqy (by simpa using hmiss y hy1)
  · rcases List.mem_cons.mp hy2 with hyx | hy2
    · rw [hyx]
    · rw [hsplit] at hsorted
      have htail : (x :: l2).Pairwise (fun x y => key x ≤ key y) :=
        List.Pairwise.sublist (List.sublist_append_right l1 (x :: l2)) hsorted
      exact (List.pairwise_cons.mp htail).1 y hy2

theorem find?_max_key {α : Type _} (key : α → Nat) (pos : Nat)
    (l : List α) (hsorted : l.Pairwise (fun x y => key y ≤ key x))
    (x : α) (hfind : l.find? (fun a => key a < pos) = some x) :
    ∀ y ∈ l, key y < pos → key y ≤ key x := by
  obtain ⟨hp, l1, l2, hsplit, hmiss⟩ := List.find?_eq_some.mp hfind
  intro y hy hqy
  rw [hsplit] at hy
  rcases List.mem_append.mp hy with hy1 | hy2
  · exact absurd hqy (by simpa using hmiss y hy1)
  · rcases List.mem_cons.mp hy2 with hyx | hy2
    · rw [hyx]
    · rw [hsplit] at hsorted
      have htail : (x :: l2).Pairwise (fun x y => key y ≤ key x) :=
        List.Pairwise.sublist (List.sublist_append_right l1 (x :: l2)) hsorted
      exact (List.pairwise_cons.mp htail).1 y hy2

/-- C3: navigation over a stored set whose region begins are in
nondecreasing stored order (the AnnotationSet invariant: the sequence
preserves the tool's line order).  On the empty set both directions give
none.  `next` returns a stored entry whose span begin is strictly greater
than the position and minimal among such entries whenever one exists, and
wraps to the first entry otherwise; `previous` returns an entry whose span
begin is strictly less than the position and maximal among such entries
whenever one exists, and wraps to the last entry otherwise. -/
theorem annotation_navigation (diags : List StoredDiag) (pos : Nat)
    (hsorted : diags.Pairwise
      (fun d e => d.region.rbegin ≤ e.region.rbegin)) :
    (diags = [] → nextDiag diags pos = none ∧ prevDiag diags pos = none) ∧
    ((∃ e ∈ diags, pos < e.region.rbegin) →
      ∃ d, nextDiag diags pos = some d ∧ d ∈ diags ∧
        pos < d.region.rbegin ∧
        ∀ e ∈ diags, pos < e.region.rbegin →
          d.region.rbegin ≤ e.region.rbegin) ∧
    ((∀ e ∈ diags, ¬ pos < e.region.rbegin) →
      nextDiag diags pos = diags.head?) ∧
    ((∃ e ∈ diags, e.region.rbegin < pos) →
      ∃ d, prevDiag diags pos = some d ∧ d ∈ diags ∧
        d.region.rbegin < pos ∧
        ∀ e ∈ diags, e.region.rbegin < pos →
          e.region.rbegin ≤ d.region.rbegin) ∧
    ((∀ e ∈ diags, ¬ e.region.rbegin < pos) →
      prevDiag diags pos = diags.getLast?) := by
  refine ⟨?_, ?_, ?_, ?_, ?_⟩
  · intro h
    subst h
    exact ⟨rfl, rfl⟩
  · intro ⟨e, he, hqe⟩
    cases hfind : diags.find? (fun d => pos < d.region.rbegin) with
    | none =>
      exact absurd hqe (by simpa using List.find?_eq_none.mp hfind e he)
    | some d =>
      refine ⟨d, by simp [nextDiag, hfind], List.mem_of_find?_eq_some hfind,
        by simpa using List.find?_some hfind, ?_⟩
      exact find?_min_key (fun s => s.region.rbegin) pos diags hsorted d hfind
  · intro h
    have hfind : diags.find? (fun d => pos < d.region.rbegin) = none :=
      List.find?_eq_none.mpr (fun e he => by simpa using h e he)
    simp [nextDiag, hfind]
  · intro ⟨e, he, hqe⟩
    have hrev : diags.reverse.Pairwise
        (fun d e => e.region.rbegin ≤ d.region.rbegin) :=
      List.pairwise_reverse.mpr hsorted
    cases hfind : diags.reverse.find? (fun d => d.region.rbegin < pos) with
    | none =>
      have := List.find?_eq_none.mp hfind e (List.mem_reverse.mpr he)
      exact absurd hqe (by simpa using this)
    | some d =>
      refine ⟨d, by simp [prevDiag, hfind],
        List.mem_reverse.mp (List.mem_of_find?_eq_some hfind),
        by simpa using List.find?_some hfind, ?_⟩
      intro f hf hqf
      exact find?_max_key (fun s => s.region.rbegin) pos diags.reverse hrev d
        hfind f (List.mem_reverse.mpr hf) hqf
  · intro h
    have hfind : diags.reverse.find? (fun d => d.region.rbegin < pos) = none :=
      List.find?_eq_none.mpr
        (fun e he => by simpa using h e (List.mem_reverse.mp he))
    simp [prevDiag, hfind]

/-- The three diagnostics of the C3 example, with span starts 10, 50, 90
in stored order. -/
def exampleNav : List StoredDiag :=
  [{ region := { a := 10, b := 14 }, code := "E501", message := "a",
     url := "", severity := .error, row := 1, col := 11 },
   { region := { a := 50, b := 54 }, code := "W605", message := "b",
     url := "", severity := .warning, row := 2, col := 1 },
   { region := { a := 90, b := 94 }, code := "ZZ1", message := "c",
     url := "", severity := .info, row := 3, col := 1 }]

/-- Witness for `annotation_navigation`: with diagnostics at offsets
[10, 50, 90] and the cursor at 90, `next` wraps to the element at 10 (no
span start exceeds 90) and `previous` returns the element at 50. -/
theorem annotation_navigation_witness :
    nextDiag exampleNav 90 = exampleNav.head? ∧
    (nextDiag exampleNav 90).map (fun d => d.region.rbegin) = some 10 ∧
    (prevDiag exampleNav 90).map (fun d => d.region.rbegin) = some 50 := by
  have h := annotation_navigation exampleNav 90 (by decide)
  refine ⟨h.2.2.1 (by decide), ?_, by decide⟩
  rw [h.2.2.1 (by decide)]
  decide

end PythonRuff
